import Mathlib

/-!
Shallow embedding of the vault-mcp HTTP Vault client and MCP façade
(`src/index.ts`) and verification of its specification claims.

JSON values are modelled by `JValue`, JavaScript runtime errors by
`JsError`, and the HTTP transport by a `Remote` oracle mapping each
outgoing request to a canned `HttpResponse`.  Each source function of
`HttpVaultClient` and of the MCP tool/resource/prompt handlers is
translated into an executable Lean definition that also records the
requests it issues, so that claims about issued requests, bodies,
headers and error propagation can be stated and settled.
-/

/-- JSON values as produced by `JSON.parse` / consumed by `JSON.stringify`.
Numbers are modelled as integers (every number occurring in this
program is an integer version counter or status code). -/
inductive JValue where
  | null
  | num (n : Int)
  | str (s : String)
  | arr (xs : List JValue)
  | obj (fs : List (String × JValue))

/-- A JavaScript error object: its constructor name and its message.
`String(err)` renders it as `name ++ ": " ++ message`. -/
structure JsError where
  name : String
  message : String
deriving DecidableEq, Repr

/-- `String(err)` for a JavaScript `Error` object. -/
def jsString (e : JsError) : String := e.name ++ ": " ++ e.message

/-- Field lookup in a JSON object, first match wins (objects built by
this program never repeat keys). -/
def lookupField (fs : List (String × JValue)) (k : String) : Option JValue :=
  match fs with
  | [] => none
  | (k0, v) :: rest => if k0 = k then some v else lookupField rest k

/-- JavaScript property access `v.k` on a possibly-`undefined` value
(`none` models `undefined`).  Accessing a property of `undefined` or
`null` throws a `TypeError`; on a primitive it yields `undefined`. -/
def jsGetProp (v : Option JValue) (k : String) : Except JsError (Option JValue) :=
  match v with
  | none => Except.error ⟨"TypeError", "Cannot read properties of undefined (reading " ++ k ++ ")"⟩
  | some JValue.null => Except.error ⟨"TypeError", "Cannot read properties of null (reading " ++ k ++ ")"⟩
  | some (JValue.obj fs) => Except.ok (lookupField fs k)
  | some _ => Except.ok none

/-- JavaScript optional property access `v?.k`: yields `undefined`
instead of throwing when `v` is `undefined` or `null`. -/
def jsGetPropOpt (v : Option JValue) (k : String) : Option JValue :=
  match v with
  | some (JValue.obj fs) => lookupField fs k
  | _ => none

/-- JavaScript truthiness of a defined value. -/
def jsTruthyV : JValue → Bool
  | JValue.null => false
  | JValue.num n => n != 0
  | JValue.str s => s != ""
  | _ => true

/-- Truthiness of a possibly-`undefined` value (`undefined` is falsy). -/
def truthyOpt : Option JValue → Bool
  | none => false
  | some v => jsTruthyV v

/-- The nullish-coalescing operator `v ?? d`. -/
def jsCoalesce (v : Option JValue) (d : JValue) : JValue :=
  match v with
  | none => d
  | some JValue.null => d
  | some w => w

/-- Lower-case hexadecimal digit. -/
def hexLower (n : Nat) : Char :=
  if n < 10 then Char.ofNat (48 + n) else Char.ofNat (87 + n)

/-- Upper-case hexadecimal digit, as used by `encodeURIComponent`. -/
def hexUpper (n : Nat) : Char :=
  if n < 10 then Char.ofNat (48 + n) else Char.ofNat (55 + n)

/-- JSON string escaping as performed by `JSON.stringify`. -/
def jsonEscapeChar (c : Char) : String :=
  if c = '"' then "\\\""
  else if c = '\\' then "\\\\"
  else if c = '\n' then "\\n"
  else if c = '\t' then "\\t"
  else if c = '\r' then "\\r"
  else if c.toNat < 32 then
    "\\u00" ++ (hexLower (c.toNat / 16)).toString ++ (hexLower (c.toNat % 16)).toString
  else c.toString

/-- JSON-escape every character of a string. -/
def jsonEscape (s : String) : String :=
  s.data.foldl (fun acc c => acc ++ jsonEscapeChar c) ""

/-- Rendering used by `Array.prototype.join`: `String(x)` per element,
with `null`/`undefined` rendered as the empty string. -/
def jsJoinDisplay : JValue → String
  | JValue.null => ""
  | JValue.num n => toString n
  | JValue.str s => s
  | JValue.arr xs => joinDisplayList xs
  | JValue.obj _ => "[object Object]"
where
  /-- Nested arrays render as their own comma join. -/
  joinDisplayList : List JValue → String
  | [] => ""
  | [x] => jsJoinDisplay x
  | x :: y :: rest => jsJoinDisplay x ++ "," ++ joinDisplayList (y :: rest)

mutual

/-- Compact `JSON.stringify(v)` (no indent argument). -/
def stringifyCompact : JValue → String
  | JValue.null => "null"
  | JValue.num n => toString n
  | JValue.str s => "\"" ++ jsonEscape s ++ "\""
  | JValue.arr xs => "[" ++ stringifyCompactList xs ++ "]"
  | JValue.obj fs => "\x7b" ++ stringifyCompactFields fs ++ "\x7d"

/-- Comma-joined compact rendering of array elements. -/
def stringifyCompactList : List JValue → String
  | [] => ""
  | [x] => stringifyCompact x
  | x :: y :: rest => stringifyCompact x ++ "," ++ stringifyCompactList (y :: rest)

/-- Comma-joined compact rendering of object fields. -/
def stringifyCompactFields : List (String × JValue) → String
  | [] => ""
  | [(k, v)] => "\"" ++ jsonEscape k ++ "\":" ++ stringifyCompact v
  | (k, v) :: f :: rest =>
      "\"" ++ jsonEscape k ++ "\":" ++ stringifyCompact v ++ "," ++ stringifyCompactFields (f :: rest)

end

/-- Indentation of `2 * d` spaces, matching `JSON.stringify(v, null, 2)`. -/
def indentN (d : Nat) : String := String.mk (List.replicate (2 * d) ' ')

mutual

/-- Pretty `JSON.stringify(v, null, 2)` at nesting depth `d`. -/
def stringifyPretty (d : Nat) : JValue → String
  | JValue.null => "null"
  | JValue.num n => toString n
  | JValue.str s => "\"" ++ jsonEscape s ++ "\""
  | JValue.arr [] => "[]"
  | JValue.arr (x :: xs) =>
      "[\n" ++ stringifyPrettyList (d + 1) (x :: xs) ++ "\n" ++ indentN d ++ "]"
  | JValue.obj [] => "\x7b\x7d"
  | JValue.obj (f :: fs) =>
      "\x7b\n" ++ stringifyPrettyFields (d + 1) (f :: fs) ++ "\n" ++ indentN d ++ "\x7d"

/-- Pretty rendering of array elements, one per line. -/
def stringifyPrettyList (d : Nat) : List JValue → String
  | [] => ""
  | [x] => indentN d ++ stringifyPretty d x
  | x :: y :: rest =>
      indentN d ++ stringifyPretty d x ++ ",\n" ++ stringifyPrettyList d (y :: rest)

/-- Pretty rendering of object fields, one per line. -/
def stringifyPrettyFields (d : Nat) : List (String × JValue) → String
  | [] => ""
  | [(k, v)] => indentN d ++ "\"" ++ jsonEscape k ++ "\": " ++ stringifyPretty d v
  | (k, v) :: f :: rest =>
      indentN d ++ "\"" ++ jsonEscape k ++ "\": " ++ stringifyPretty d v ++ ",\n" ++
        stringifyPrettyFields d (f :: rest)

end

/-- String interpolation of a possibly-`undefined` stringify result:
`JSON.stringify(undefined, null, 2)` is `undefined`, which interpolates
as the text `undefined`. -/
def stringifyTop (r : Option JValue) : String :=
  match r with
  | none => "undefined"
  | some j => stringifyPretty 0 j

/-! ### Character-list string operations

JavaScript string operations used by the client (`startsWith`,
`endsWith`, `substring`, `slice(0, -1)`), modelled on the character
list underlying a Lean `String`.  All paths handled by the program are
ASCII, where JavaScript UTF-16 code-unit indices and character indices
coincide. -/

/-- `listStartsWith s p` is `true` iff `p` is a prefix of `s`. -/
def listStartsWith : List Char → List Char → Bool
  | _, [] => true
  | [], _ :: _ => false
  | a :: as, b :: bs => (a == b) && listStartsWith as bs

/-- JavaScript `s.startsWith(p)`. -/
def strStartsWith (s p : String) : Bool := listStartsWith s.data p.data

/-- JavaScript `s.endsWith(p)`. -/
def strEndsWith (s p : String) : Bool := listStartsWith s.data.reverse p.data.reverse

/-- JavaScript `s.substring(n)` (for ASCII strings). -/
def strDrop (s : String) (n : Nat) : String := String.mk (s.data.drop n)

/-- JavaScript `s.slice(0, -1)`: the string without its last character. -/
def strDropLast (s : String) : String := String.mk s.data.dropLast

/-! ### encodeURIComponent -/

/-- UTF-8 byte sequence of a character (standard 1–4 byte encoding). -/
def utf8Bytes (c : Char) : List Nat :=
  let n := c.toNat
  if n < 0x80 then [n]
  else if n < 0x800 then [0xC0 + n / 0x40, 0x80 + n % 0x40]
  else if n < 0x10000 then
    [0xE0 + n / 0x1000, 0x80 + (n / 0x40) % 0x40, 0x80 + n % 0x40]
  else
    [0xF0 + n / 0x40000, 0x80 + (n / 0x1000) % 0x40, 0x80 + (n / 0x40) % 0x40, 0x80 + n % 0x40]

/-- Characters `encodeURIComponent` leaves unescaped:
`A-Z a-z 0-9 - _ . ! ~ * ' ( )`. -/
def uriUnescaped (c : Char) : Bool :=
  c.isAlpha || c.isDigit || c = '-' || c = '_' || c = '.' || c = '!' ||
    c = '~' || c = '*' || c = '\x27' || c = '(' || c = ')'

/-- `%XY` upper-case percent encoding of one byte. -/
def percentByte (b : Nat) : String :=
  "%" ++ (hexUpper (b / 16)).toString ++ (hexUpper (b % 16)).toString

/-- JavaScript `encodeURIComponent`. -/
def encodeURIComponent (s : String) : String :=
  s.data.foldl
    (fun acc c =>
      acc ++ (if uriUnescaped c then c.toString
              else String.join ((utf8Bytes c).map percentByte)))
    ""

/-! ### HTTP transport helper (`HttpVaultClient.request`) -/

/-- One outgoing HTTP request as handed to `fetch`: method, absolute
URL, header list, and the optional JSON body (`JSON.stringify` is
applied at the wire; the body is kept structured here). -/
structure SentRequest where
  method : String
  url : String
  headers : List (String × String)
  body : Option JValue

/-- One canned HTTP response: its status code and the result of
parsing its body as JSON (`none` models an unparsable or empty body,
for which `response.json()` throws). -/
structure HttpResponse where
  status : Nat
  body : Option JValue

/-- `response.ok`: status in the inclusive range 200–299. -/
def respOk (status : Nat) : Bool := 200 ≤ status && status < 300

/-- The remote Vault service, modelled as an oracle from request to
response. -/
def Remote : Type := SentRequest → HttpResponse

/-- Client state: base URL (trailing slash already stripped) and token. -/
structure Client where
  baseUrl : String
  token : String

/-- `new HttpVaultClient(baseUrl, token)`: strips one trailing slash
from the base URL (`baseUrl.replace(/\/$/, "")`). -/
def Client.make (baseUrl token : String) : Client :=
  ⟨if strEndsWith baseUrl "/" then strDropLast baseUrl else baseUrl, token⟩

/-- The request constructed by `HttpVaultClient.request`: URL
`baseUrl ++ "/v1/" ++ apiPath`, the token header and the JSON
content-type header (both unconditionally), and the body exactly when
one was provided. -/
def buildRequest (c : Client) (method apiPath : String) (body : Option JValue) : SentRequest :=
  { method := method
    url := c.baseUrl ++ "/v1/" ++ apiPath
    headers := [("X-Vault-Token", c.token), ("Content-Type", "application/json")]
    body := body }

/-- Base error message `<METHOD> <path> failed with <status>`. -/
def vaultBaseMessage (method apiPath : String) (status : Nat) : String :=
  method ++ " " ++ apiPath ++ " failed with " ++ toString status

/-- `errJson?.errors` when that is an array: the structured error list
of a Vault error body.  Any other shape (no object, no `errors`
field, non-array `errors`) yields `none`, in which case the `try`
block leaves the base message unchanged. -/
def errorsField (body : Option JValue) : Option (List JValue) :=
  match body with
  | some (JValue.obj fs) =>
      match lookupField fs "errors" with
      | some (JValue.arr xs) => some xs
      | _ => none
  | _ => none

/-- The error message thrown on a non-success status: the base message,
extended with `": " ++ errors.join("; ")` when the body parses to an
object with a non-empty `errors` array. -/
def vaultErrorMessage (method apiPath : String) (resp : HttpResponse) : String :=
  let base := vaultBaseMessage method apiPath resp.status
  match errorsField resp.body with
  | some xs =>
      if xs.length ≠ 0 then
        base ++ ": " ++ String.intercalate "; " (xs.map jsJoinDisplay)
      else base
  | none => base

/-- Response handling of `HttpVaultClient.request`: non-success status
throws an `Error` with `vaultErrorMessage`; 204 returns `undefined`;
otherwise the body is parsed as JSON (a parse failure throws). -/
def handleResponse (method apiPath : String) (resp : HttpResponse) :
    Except JsError (Option JValue) :=
  if respOk resp.status = false then
    Except.error ⟨"Error", vaultErrorMessage method apiPath resp⟩
  else if resp.status = 204 then
    Except.ok none
  else
    match resp.body with
    | some j => Except.ok (some j)
    | none => Except.error ⟨"SyntaxError", "Unexpected end of JSON input"⟩

/-- `HttpVaultClient.request`: builds the request, sends it to the
remote, and handles the response.  Returns the sent request together
with the outcome. -/
def request (c : Client) (remote : Remote) (method apiPath : String) (body : Option JValue) :
    SentRequest × Except JsError (Option JValue) :=
  let req := buildRequest c method apiPath body
  (req, handleResponse method apiPath (remote req))

/-! ### Versioned-KV and policy operations -/

/-- `HttpVaultClient.write`: POST the payload to the given path. -/
def write (c : Client) (remote : Remote) (path : String) (payload : JValue) :
    SentRequest × Except JsError (Option JValue) :=
  request c remote "POST" path (some payload)

/-- `HttpVaultClient.readKv2`: GET the given path. -/
def readKv2 (c : Client) (remote : Remote) (path : String) :
    SentRequest × Except JsError (Option JValue) :=
  request c remote "GET" path none

/-- The error thrown by `delete` when no usable current version exists. -/
def noVersionError : JsError := ⟨"Error", "No current_version found for secret"⟩

/-- `meta.data.current_version` of the metadata response (property
access can throw a `TypeError` when `meta` or `meta.data` is
`undefined`/`null`). -/
def metaCurrentVersion (meta : Option JValue) : Except JsError (Option JValue) := do
  let d ← jsGetProp meta "data"
  jsGetProp d "current_version"

/-- `HttpVaultClient.delete`: for `secret/data/<relative>` paths, read
`secret/metadata/<relative>`, and with a truthy `current_version` soft
delete via `POST secret/delete/<relative>` with `{versions: [v]}`;
with a falsy or absent one throw `noVersionError`.  Other paths get a
raw DELETE.  Returns the list of issued requests and the outcome. -/
def delete (c : Client) (remote : Remote) (path : String) :
    List SentRequest × Except JsError (Option JValue) :=
  if strStartsWith path "secret/data/" then
    let relative := strDrop path (String.length "secret/data/")
    let meta := request c remote "GET" ("secret/metadata/" ++ relative) none
    match meta.2 with
    | Except.error e => ([meta.1], Except.error e)
    | Except.ok mv =>
      match metaCurrentVersion mv with
      | Except.error e => ([meta.1], Except.error e)
      | Except.ok none => ([meta.1], Except.error noVersionError)
      | Except.ok (some v) =>
        if jsTruthyV v then
          let soft := request c remote "POST" ("secret/delete/" ++ relative)
            (some (JValue.obj [("versions", JValue.arr [v])]))
          ([meta.1, soft.1], soft.2)
        else ([meta.1], Except.error noVersionError)
  else
    let raw := request c remote "DELETE" path none
    ([raw.1], raw.2)

/-- Path normalization of `HttpVaultClient.list`: drop one trailing
slash if present (`path.endsWith("/") ? path.slice(0, -1) : path`). -/
def listPath (path : String) : String :=
  if strEndsWith path "/" then strDropLast path else path

/-- `HttpVaultClient.list`: GET `<normalized path>?list=true`. -/
def list (c : Client) (remote : Remote) (path : String) :
    SentRequest × Except JsError (Option JValue) :=
  request c remote "GET" (listPath path ++ "?list=true") none

/-- `HttpVaultClient.sys.addPolicy`: PUT the policy text to
`sys/policies/acl/<encodeURIComponent(name)>`. -/
def addPolicy (c : Client) (remote : Remote) (name policy : String) :
    SentRequest × Except JsError (Option JValue) :=
  request c remote "PUT" ("sys/policies/acl/" ++ encodeURIComponent name)
    (some (JValue.obj [("policy", JValue.str policy)]))

/-- `HttpVaultClient.sys.listPolicies`: GET `sys/policies/acl`. -/
def listPolicies (c : Client) (remote : Remote) :
    SentRequest × Except JsError (Option JValue) :=
  request c remote "GET" "sys/policies/acl"  none

/-! ### MCP façade: tool handlers, resources, prompt -/

/-- A tool handler result: the `isError` flag and the text content. -/
structure ToolResult where
  isError : Bool
  text : String
deriving DecidableEq, Repr

/-- The `create_secret` tool handler: writes `{data}` to
`secret/data/<path>`.  It has no try/catch, so a failing write makes
the error escape the handler (`Except.error`). -/
def createSecretTool (c : Client) (remote : Remote) (path : String) (data : JValue) :
    Except JsError ToolResult :=
  match (write c remote ("secret/data/" ++ path) (JValue.obj [("data", data)])).2 with
  | Except.ok r =>
      Except.ok ⟨false, "Secret written at: " ++ path ++ "\n" ++ stringifyTop r⟩
  | Except.error e => Except.error e

/-- The `read_secret` tool handler: reads `secret/data/<path>`,
extracts `result.data?.data ?? \x7b\x7d`, and converts any thrown error
into an error-flagged result carrying `String(err)`. -/
def readSecretTool (c : Client) (remote : Remote) (path : String) :
    Except JsError ToolResult :=
  match (readKv2 c remote ("secret/data/" ++ path)).2 with
  | Except.error e =>
      Except.ok ⟨true, "Failed to read secret at: " ++ path ++ "\n" ++ jsString e⟩
  | Except.ok result =>
    match jsGetProp result "data" with
    | Except.error e =>
        Except.ok ⟨true, "Failed to read secret at: " ++ path ++ "\n" ++ jsString e⟩
    | Except.ok d =>
        Except.ok ⟨false, "Secret read at: " ++ path ++ "\n" ++
          stringifyPretty 0 (jsCoalesce (jsGetPropOpt d "data") (JValue.obj []))⟩

/-- The `delete_secret` tool handler: deletes `secret/data/<path>` and
converts any thrown error into an error-flagged result. -/
def deleteSecretTool (c : Client) (remote : Remote) (path : String) :
    Except JsError ToolResult :=
  match (delete c remote ("secret/data/" ++ path)).2 with
  | Except.ok r =>
      Except.ok ⟨false, "Secret deleted at: " ++ path ++ "\n" ++ stringifyTop r⟩
  | Except.error e =>
      Except.ok ⟨true, "Failed to delete secret at: " ++ path ++ "\n" ++ jsString e⟩

/-- The `create_policy` tool handler: upserts the policy and converts
any thrown error into an error-flagged result. -/
def createPolicyTool (c : Client) (remote : Remote) (name policy : String) :
    Except JsError ToolResult :=
  match (addPolicy c remote name policy).2 with
  | Except.ok r =>
      Except.ok ⟨false, "Policy \x27" ++ name ++ "\x27 created.\n" ++ stringifyTop r⟩
  | Except.error e =>
      Except.ok ⟨true, "Failed to create policy \x27" ++ name ++ "\x27\n" ++ jsString e⟩

/-- The `vault_secrets` resource handler: lists `secret/metadata` and
renders `JSON.stringify(result.data.keys ?? [])`; its catch-all turns
any thrown error (request failure or `TypeError` on the property
accesses) into the text `[]`.  It therefore never returns
`Except.error`. -/
def vaultSecretsResource (c : Client) (remote : Remote) : Except JsError String :=
  match (list c remote "secret/metadata").2 with
  | Except.error _ => Except.ok "[]"
  | Except.ok result =>
    match jsGetProp result "data" with
    | Except.error _ => Except.ok "[]"
    | Except.ok d =>
      match jsGetProp d "keys" with
      | Except.error _ => Except.ok "[]"
      | Except.ok keys => Except.ok (stringifyCompact (jsCoalesce keys (JValue.arr [])))

/-- The `vault_policies` resource handler: no try/catch, failures
propagate. -/
def vaultPoliciesResource (c : Client) (remote : Remote) : Except JsError String :=
  match (listPolicies c remote).2 with
  | Except.ok r => Except.ok (stringifyTop r)
  | Except.error e => Except.error e

/-- Splitting a character list at every occurrence of a separator,
keeping empty pieces, as JavaScript `split` does. -/
def splitCharList (sep : Char) : List Char → List (List Char)
  | [] => [[]]
  | c :: cs =>
    match splitCharList sep cs with
    | [] => if c = sep then [[], []] else [[c]]
    | r :: rs => if c = sep then [] :: r :: rs else (c :: r) :: rs

/-- JavaScript `s.split(sep)` for a one-character separator. -/
def jsSplit (s : String) (sep : Char) : List String :=
  (splitCharList sep s.data).map String.mk

/-- Whitespace characters removed by JavaScript `trim` (the ASCII ones;
no input of this program carries Unicode whitespace). -/
def jsIsSpace (c : Char) : Bool :=
  c = ' ' || c = '\t' || c = '\n' || c = '\r' || c = '\x0b' || c = '\x0c'

/-- JavaScript `s.trim()`: strip leading and trailing whitespace. -/
def jsTrim (s : String) : String :=
  String.mk (((s.data.dropWhile jsIsSpace).reverse.dropWhile jsIsSpace).reverse)

/-- The `generate_policy` prompt handler: pure, no remote call.  Splits
the comma-separated capability string, trims each entry, and builds
`\x7bpath: \x7b<path>: \x7bcapabilities: <list>\x7d\x7d\x7d`. -/
def generatePolicy (path capabilities : String) : JValue :=
  let capArray := (jsSplit capabilities ',').map (fun c => JValue.str (jsTrim c))
  JValue.obj [("path", JValue.obj [(path, JValue.obj [("capabilities", JValue.arr capArray)])])]

/-! ### Basic lemmas about the string operations -/

theorem listStartsWith_append (p s : List Char) : listStartsWith (p ++ s) p = true := by
  induction p with
  | nil => simp [listStartsWith]
  | cons a as ih => simp [listStartsWith, ih]

theorem strStartsWith_append (p s : String) : strStartsWith (p ++ s) p = true := by
  simp [strStartsWith, String.data_append, listStartsWith_append]

theorem strDrop_append (p s : String) : strDrop (p ++ s) (String.length p) = s := by
  show String.mk ((p ++ s).data.drop p.data.length) = s
  rw [String.data_append, List.drop_left]

theorem strEndsWith_concat (p : String) : strEndsWith (p ++ "/") "/" = true := by
  show listStartsWith (p ++ "/").data.reverse ("/" : String).data.reverse = true
  rw [String.data_append, show ("/" : String).data = ['/'] from rfl, List.reverse_append]
  simp [listStartsWith]

theorem strDropLast_concat (p : String) : strDropLast (p ++ "/") = p := by
  show String.mk ((p ++ "/").data.dropLast) = p
  rw [String.data_append, show ("/" : String).data = ['/'] from rfl, List.dropLast_concat]

/-! ### Concrete fixtures used by witnesses and counterexamples -/

/-- A concrete client. -/
def demoClient : Client := Client.make "http://vault.local" "hvs.token"

/-- A remote whose every response is `200` with an empty JSON object. -/
def okRemote : Remote := fun _ => ⟨200, some (JValue.obj [])⟩

/-- A remote whose every response is a bare `500` with unparsable body. -/
def failRemote : Remote := fun _ => ⟨500, none⟩

/-- A remote whose metadata response carries a `data` object without
any `current_version` field. -/
def metaNoVersionRemote : Remote :=
  fun _ => ⟨200, some (JValue.obj [("data", JValue.obj [])])⟩

/-- A remote whose metadata response carries `current_version: 0`. -/
def metaZeroRemote : Remote :=
  fun _ => ⟨200, some (JValue.obj [("data", JValue.obj [("current_version", JValue.num 0)])])⟩

/-- A remote answering metadata GETs with `current_version: 3` and
everything else with `204 No Content`. -/
def deleteRemoteV3 : Remote := fun req =>
  if req.method = "GET" then
    ⟨200, some (JValue.obj [("data", JValue.obj [("current_version", JValue.num 3)])])⟩
  else ⟨204, none⟩

/-- A remote returning `403 \x7berrors: ["permission denied"]\x7d` always. -/
def permissionDeniedRemote : Remote :=
  fun _ => ⟨403, some (JValue.obj [("errors", JValue.arr [JValue.str "permission denied"])])⟩

/-! ### Shared helper lemmas about `delete` -/

/-- When the metadata GET succeeds but yields a falsy (or absent)
`current_version`, `delete` on a `secret/data/` path issues only the
metadata GET and throws `noVersionError`. -/
theorem delete_no_usable_version (c : Client) (remote : Remote) (rel : String)
    (mv : Option JValue) (cv : Option JValue)
    (hmeta : handleResponse "GET" ("secret/metadata/" ++ rel)
        (remote (buildRequest c "GET" ("secret/metadata/" ++ rel) none)) = Except.ok mv)
    (hcv : metaCurrentVersion mv = Except.ok cv)
    (ht : truthyOpt cv = false) :
    delete c remote ("secret/data/" ++ rel) =
      ([buildRequest c "GET" ("secret/metadata/" ++ rel) none], Except.error noVersionError) := by
  have hp : strStartsWith ("secret/data/" ++ rel) "secret/data/" = true :=
    strStartsWith_append "secret/data/" rel
  have hd : strDrop ("secret/data/" ++ rel) (String.length "secret/data/") = rel :=
    strDrop_append "secret/data/" rel
  simp only [delete, request, hp, if_true, hd]
  rw [hmeta]
  dsimp only
  rw [hcv]
  cases cv with
  | none => rfl
  | some v =>
    simp only [truthyOpt] at ht
    simp [ht]

/-- When the metadata GET succeeds and yields a truthy
`current_version`, `delete` on a `secret/data/` path issues the
metadata GET followed by exactly the soft-delete POST. -/
theorem delete_soft_version (c : Client) (remote : Remote) (rel : String)
    (mv : Option JValue) (v : JValue)
    (hmeta : handleResponse "GET" ("secret/metadata/" ++ rel)
        (remote (buildRequest c "GET" ("secret/metadata/" ++ rel) none)) = Except.ok mv)
    (hcv : metaCurrentVersion mv = Except.ok (some v))
    (ht : jsTruthyV v = true) :
    delete c remote ("secret/data/" ++ rel) =
      ([buildRequest c "GET" ("secret/metadata/" ++ rel) none,
        buildRequest c "POST" ("secret/delete/" ++ rel)
          (some (JValue.obj [("versions", JValue.arr [v])]))],
       handleResponse "POST" ("secret/delete/" ++ rel)
         (remote (buildRequest c "POST" ("secret/delete/" ++ rel)
           (some (JValue.obj [("versions", JValue.arr [v])]))))) := by
  have hp : strStartsWith ("secret/data/" ++ rel) "secret/data/" = true :=
    strStartsWith_append "secret/data/" rel
  have hd : strDrop ("secret/data/" ++ rel) (String.length "secret/data/") = rel :=
    strDrop_append "secret/data/" rel
  simp only [delete, request, hp, if_true, hd]
  rw [hmeta]
  dsimp only
  rw [hcv]
  dsimp only
  simp [ht]

/-- The metadata GET method differs from DELETE. -/
theorem method_get_ne_delete : ("GET" : String) ≠ "DELETE" := by decide

/-- The soft-delete POST method differs from DELETE. -/
theorem method_post_ne_delete : ("POST" : String) ≠ "DELETE" := by decide

/-- C1 (counterexample): for the path `secret/data/app`, a metadata
response whose `data` object has no `current_version` makes `delete`
throw `Error: No current_version found for secret` after the single
metadata GET — no full metadata deletion (no DELETE request) is
issued, refuting the claimed fallback. -/
theorem C1_counterexample :
    delete demoClient metaNoVersionRemote "secret/data/app" =
      ([buildRequest demoClient "GET" "secret/metadata/app" none],
       Except.error ⟨"Error", "No current_version found for secret"⟩) ∧
    (delete demoClient metaNoVersionRemote "secret/data/app").1.map SentRequest.method = ["GET"] :=
  ⟨rfl, rfl⟩

/-- C1 (amended): for every path of the form `secret/data/<rel>`, when
the metadata read succeeds but yields no usable (truthy) current
version, `delete` surfaces a hard failure — the error
`No current_version found for secret` — after issuing only the
metadata GET; in particular it never issues a full metadata deletion
(DELETE) request. -/
theorem C1_delete_no_version_hard_failure (c : Client) (remote : Remote) (rel : String)
    (mv : Option JValue) (cv : Option JValue)
    (hmeta : handleResponse "GET" ("secret/metadata/" ++ rel)
        (remote (buildRequest c "GET" ("secret/metadata/" ++ rel) none)) = Except.ok mv)
    (hcv : metaCurrentVersion mv = Except.ok cv)
    (ht : truthyOpt cv = false) :
    delete c remote ("secret/data/" ++ rel) =
      ([buildRequest c "GET" ("secret/metadata/" ++ rel) none],
       Except.error ⟨"Error", "No current_version found for secret"⟩) ∧
    ∀ r ∈ (delete c remote ("secret/data/" ++ rel)).1, r.method ≠ "DELETE" := by
  have h := delete_no_usable_version c remote rel mv cv hmeta hcv ht
  refine ⟨h, ?_⟩
  rw [h]
  intro r hr
  simp only [List.mem_singleton] at hr
  subst hr
  exact method_get_ne_delete

/-- C1 witness: the amended theorem applied at the concrete
no-version fixture. -/
theorem C1_delete_no_version_hard_failure_witness :
    (handleResponse "GET" ("secret/metadata/" ++ "app")
        (metaNoVersionRemote (buildRequest demoClient "GET" ("secret/metadata/" ++ "app") none)) =
      Except.ok (some (JValue.obj [("data", JValue.obj [])]))) ∧
    (metaCurrentVersion (some (JValue.obj [("data", JValue.obj [])])) = Except.ok none) ∧
    delete demoClient metaNoVersionRemote ("secret/data/" ++ "app") =
      ([buildRequest demoClient "GET" ("secret/metadata/" ++ "app") none],
       Except.error ⟨"Error", "No current_version found for secret"⟩) :=
  ⟨rfl, rfl,
    (C1_delete_no_version_hard_failure demoClient metaNoVersionRemote "app"
      (some (JValue.obj [("data", JValue.obj [])])) none rfl rfl rfl).1⟩

/-- C2 (confirmed): for every path `secret/data/<rel>`, when the
metadata read yields a current version `v` (a non-zero number),
`delete` issues exactly one soft-delete request
`POST secret/delete/<rel>` with body `\x7bversions: [v]\x7d` — the full
request trace is the metadata GET followed by that POST and nothing
else — and no DELETE (full-metadata-delete) request is ever issued in
this branch. -/
theorem C2_soft_delete_exact (c : Client) (remote : Remote) (rel : String)
    (mv : Option JValue) (v : Int)
    (hmeta : handleResponse "GET" ("secret/metadata/" ++ rel)
        (remote (buildRequest c "GET" ("secret/metadata/" ++ rel) none)) = Except.ok mv)
    (hcv : metaCurrentVersion mv = Except.ok (some (JValue.num v)))
    (hv : v ≠ 0) :
    delete c remote ("secret/data/" ++ rel) =
      ([buildRequest c "GET" ("secret/metadata/" ++ rel) none,
        buildRequest c "POST" ("secret/delete/" ++ rel)
          (some (JValue.obj [("versions", JValue.arr [JValue.num v])]))],
       handleResponse "POST" ("secret/delete/" ++ rel)
         (remote (buildRequest c "POST" ("secret/delete/" ++ rel)
           (some (JValue.obj [("versions", JValue.arr [JValue.num v])]))))) ∧
    ∀ r ∈ (delete c remote ("secret/data/" ++ rel)).1, r.method ≠ "DELETE" := by
  have ht : jsTruthyV (JValue.num v) = true := by simp [jsTruthyV, hv]
  have h := delete_soft_version c remote rel mv (JValue.num v) hmeta hcv ht
  refine ⟨h, ?_⟩
  rw [h]
  intro r hr
  simp only [List.mem_cons, List.mem_singleton, List.not_mem_nil, or_false] at hr
  rcases hr with h1 | h1
  · subst h1
    exact method_get_ne_delete
  · subst h1
    exact method_post_ne_delete

/-- C2 witness: a metadata response with `current_version: 3` leads to
exactly `POST secret/delete/app \x7bversions: [3]\x7d`. -/
theorem C2_soft_delete_exact_witness :
    (metaCurrentVersion (some (JValue.obj [("data", JValue.obj [("current_version", JValue.num 3)])])) =
      Except.ok (some (JValue.num 3))) ∧
    (3 : Int) ≠ 0 ∧
    delete demoClient deleteRemoteV3 ("secret/data/" ++ "app") =
      ([buildRequest demoClient "GET" ("secret/metadata/" ++ "app") none,
        buildRequest demoClient "POST" ("secret/delete/" ++ "app")
          (some (JValue.obj [("versions", JValue.arr [JValue.num 3])]))],
       Except.ok none) := by
  refine ⟨rfl, by decide, ?_⟩
  have h := (C2_soft_delete_exact demoClient deleteRemoteV3 "app"
    (some (JValue.obj [("data", JValue.obj [("current_version", JValue.num 3)])])) 3
    rfl rfl (by decide)).1
  exact h.trans rfl

/-- C10 (confirmed): the presence test on `current_version` is a
falsiness check — a metadata response with `current_version: 0` is
handled exactly like one with the field absent: the no-version branch
is taken (the `No current_version found for secret` error), only the
metadata GET is issued, and no soft-delete request with
`versions: [0]` is ever sent. -/
theorem C10_zero_version_is_absent (c : Client) (remote : Remote) (rel : String)
    (mv : Option JValue) (cv : Option JValue)
    (hmeta : handleResponse "GET" ("secret/metadata/" ++ rel)
        (remote (buildRequest c "GET" ("secret/metadata/" ++ rel) none)) = Except.ok mv)
    (hcv : metaCurrentVersion mv = Except.ok cv)
    (h0 : cv = some (JValue.num 0) ∨ cv = none) :
    delete c remote ("secret/data/" ++ rel) =
      ([buildRequest c "GET" ("secret/metadata/" ++ rel) none],
       Except.error ⟨"Error", "No current_version found for secret"⟩) := by
  have ht : truthyOpt cv = false := by
    rcases h0 with h | h <;> subst h <;> rfl
  exact delete_no_usable_version c remote rel mv cv hmeta hcv ht

/-- C10 witness: `current_version: 0` concretely takes the no-version
branch with a single GET issued. -/
theorem C10_zero_version_is_absent_witness :
    (metaCurrentVersion (some (JValue.obj [("data", JValue.obj [("current_version", JValue.num 0)])])) =
      Except.ok (some (JValue.num 0))) ∧
    delete demoClient metaZeroRemote ("secret/data/" ++ "app") =
      ([buildRequest demoClient "GET" ("secret/metadata/" ++ "app") none],
       Except.error ⟨"Error", "No current_version found for secret"⟩) :=
  ⟨rfl,
    C10_zero_version_is_absent demoClient metaZeroRemote "app"
      (some (JValue.obj [("data", JValue.obj [("current_version", JValue.num 0)])]))
      (some (JValue.num 0)) rfl rfl (Or.inl rfl)⟩

/-- C3 (confirmed): a non-success HTTP status makes the transport
helper raise an `Error` whose message is the base string
`<METHOD> <path> failed with <status>`; a body parsing to a non-empty
`errors` list extends it with `": "` and the messages joined by
`"; "`; an unparsable body yields the base message alone.  The final
conjunct is the 403 / permission-denied scenario, with the message
decomposed to exhibit both the status code and the remote message. -/
theorem C3_error_message (method apiPath : String) (status : Nat)
    (h : respOk status = false) :
    (∀ body, handleResponse method apiPath ⟨status, body⟩ =
        Except.error ⟨"Error", vaultErrorMessage method apiPath ⟨status, body⟩⟩) ∧
    vaultErrorMessage method apiPath ⟨status, none⟩ = vaultBaseMessage method apiPath status ∧
    (∀ errs : List String, errs ≠ [] →
        vaultErrorMessage method apiPath
            ⟨status, some (JValue.obj [("errors", JValue.arr (errs.map JValue.str))])⟩ =
          vaultBaseMessage method apiPath status ++ ": " ++ String.intercalate "; " errs) ∧
    handleResponse "GET" "secret/data/x"
        ⟨403, some (JValue.obj [("errors", JValue.arr [JValue.str "permission denied"])])⟩ =
      Except.error ⟨"Error",
        "GET secret/data/x failed with " ++ "403" ++ ": " ++ "permission denied"⟩ := by
  refine ⟨?_, ?_, ?_, rfl⟩
  · intro body
    simp [handleResponse, h]
  · simp [vaultErrorMessage, errorsField]
  · intro errs hne
    have hlen : (errs.map JValue.str).length ≠ 0 := by
      rw [List.length_map]
      exact fun hh => hne (List.length_eq_zero.mp hh)
    have hmap : ∀ l : List String, (l.map JValue.str).map jsJoinDisplay = l := by
      intro l
      induction l with
      | nil => rfl
      | cons a as ih => simp [jsJoinDisplay, ih]
    simp [vaultErrorMessage, errorsField, lookupField, hlen, hmap]
    intro hh
    exact absurd hh hne

/-- C3 witness: the theorem applied at the concrete 403 response. -/
theorem C3_error_message_witness :
    respOk 403 = false ∧
    handleResponse "GET" "secret/data/x"
        ⟨403, some (JValue.obj [("errors", JValue.arr [JValue.str "permission denied"])])⟩ =
      Except.error ⟨"Error", "GET secret/data/x failed with 403: permission denied"⟩ := by
  refine ⟨by decide, ?_⟩
  have h := (C3_error_message "GET" "secret/data/x" 403 (by decide)).1
    (some (JValue.obj [("errors", JValue.arr [JValue.str "permission denied"])]))
  exact h.trans rfl

/-- C4 (counterexample): the `create_secret` handler has no try/catch,
so a failing write escapes the handler as a raised error instead of an
error-flagged result, refuting the claim for that operation. -/
theorem C4_counterexample :
    createSecretTool demoClient failRemote "app" (JValue.obj []) =
      Except.error ⟨"Error", "POST secret/data/app failed with 500"⟩ := rfl

/-- C4 (amended): when the underlying call raises, the `read_secret`,
`delete_secret` and `create_policy` handlers return an error-flagged
result carrying the error string; the `create_secret` handler instead
lets the error escape unchanged. -/
theorem C4_error_wrapping (c : Client) (remote : Remote) (path name policy : String)
    (data : JValue) :
    (∀ e, (readKv2 c remote ("secret/data/" ++ path)).2 = Except.error e →
        readSecretTool c remote path =
          Except.ok ⟨true, "Failed to read secret at: " ++ path ++ "\n" ++ jsString e⟩) ∧
    (∀ e, (delete c remote ("secret/data/" ++ path)).2 = Except.error e →
        deleteSecretTool c remote path =
          Except.ok ⟨true, "Failed to delete secret at: " ++ path ++ "\n" ++ jsString e⟩) ∧
    (∀ e, (addPolicy c remote name policy).2 = Except.error e →
        createPolicyTool c remote name policy =
          Except.ok ⟨true, "Failed to create policy \x27" ++ name ++ "\x27\n" ++ jsString e⟩) ∧
    (∀ e, (write c remote ("secret/data/" ++ path) (JValue.obj [("data", data)])).2 =
          Except.error e →
        createSecretTool c remote path data = Except.error e) := by
  refine ⟨?_, ?_, ?_, ?_⟩
  · intro e he
    simp [readSecretTool, he]
  · intro e he
    simp [deleteSecretTool, he]
  · intro e he
    simp [createPolicyTool, he]
  · intro e he
    simp [createSecretTool, he]

/-- C4 witness: all four branches of the amended theorem evaluated at
the always-failing remote. -/
theorem C4_error_wrapping_witness :
    readSecretTool demoClient failRemote "app" =
      Except.ok ⟨true,
        "Failed to read secret at: app\nError: GET secret/data/app failed with 500"⟩ ∧
    deleteSecretTool demoClient failRemote "app" =
      Except.ok ⟨true,
        "Failed to delete secret at: app\nError: GET secret/metadata/app failed with 500"⟩ ∧
    createPolicyTool demoClient failRemote "p" "rules" =
      Except.ok ⟨true,
        "Failed to create policy \x27p\x27\nError: PUT sys/policies/acl/p failed with 500"⟩ ∧
    createSecretTool demoClient failRemote "app" (JValue.obj []) =
      Except.error ⟨"Error", "POST secret/data/app failed with 500"⟩ := by
  have h := C4_error_wrapping demoClient failRemote "app" "p" "rules" (JValue.obj [])
  exact ⟨(h.1 _ rfl).trans rfl, (h.2.1 _ rfl).trans rfl, (h.2.2.1 _ rfl).trans rfl,
    (h.2.2.2 _ rfl).trans rfl⟩

/-- C5 (counterexample): for `p = "a/"` — a path already ending in the
separator — `list(p)` and `list(p ++ "/")` issue different requests
(`a?list=true` versus `a/?list=true`), refuting unconditional
idempotence. -/
theorem C5_counterexample :
    ((list demoClient okRemote "a/").1).url ≠ ((list demoClient okRemote ("a/" ++ "/")).1).url := by
  decide

/-- C5 (amended): `list` strips exactly one trailing separator —
`listPath (p ++ "/") = p` for every `p` — and the idempotence
`list(p) = list(p ++ "/")` holds exactly for paths `p` that do not
already end in the separator. -/
theorem C5_strip_one_separator (c : Client) (remote : Remote) :
    (∀ p : String, listPath (p ++ "/") = p) ∧
    (∀ p : String, strEndsWith p "/" = false →
        list c remote p = list c remote (p ++ "/")) := by
  have hstrip : ∀ p : String, listPath (p ++ "/") = p := by
    intro p
    simp [listPath, strEndsWith_concat, strDropLast_concat]
  refine ⟨hstrip, ?_⟩
  intro p h
  unfold list
  rw [show listPath p = p by simp [listPath, h], hstrip p]

/-- C5 witness: the amended idempotence at `p = "a"`. -/
theorem C5_strip_one_separator_witness :
    strEndsWith "a" "/" = false ∧
    list demoClient okRemote "a" = list demoClient okRemote ("a" ++ "/") :=
  ⟨by decide, (C5_strip_one_separator demoClient okRemote).2 "a" (by decide)⟩

/-- C6 (confirmed): the secrets-listing resource handler never lets an
error escape (it always returns an `ok` text), and on any raised error
of the underlying list call it returns the empty key set `[]`. -/
theorem C6_secrets_resource_total (c : Client) (remote : Remote) :
    (∃ t, vaultSecretsResource c remote = Except.ok t) ∧
    (∀ e, (list c remote "secret/metadata").2 = Except.error e →
        vaultSecretsResource c remote = Except.ok "[]") := by
  constructor
  · rcases h1 : (list c remote "secret/metadata").2 with e | result
    · exact ⟨"[]", by simp [vaultSecretsResource, h1]⟩
    · rcases h2 : jsGetProp result "data" with e | d
      · exact ⟨"[]", by simp [vaultSecretsResource, h1, h2]⟩
      · rcases h3 : jsGetProp d "keys" with e | keys
        · exact ⟨"[]", by simp [vaultSecretsResource, h1, h2, h3]⟩
        · exact ⟨stringifyCompact (jsCoalesce keys (JValue.arr [])),
            by simp [vaultSecretsResource, h1, h2, h3]⟩
  · intro e he
    simp [vaultSecretsResource, he]

/-- C6 witness: a fresh mount modelled by an always-500 remote yields
the empty key set. -/
theorem C6_secrets_resource_total_witness :
    ((list demoClient failRemote "secret/metadata").2 =
      Except.error ⟨"Error", "GET secret/metadata?list=true failed with 500"⟩) ∧
    vaultSecretsResource demoClient failRemote = Except.ok "[]" :=
  ⟨rfl, (C6_secrets_resource_total demoClient failRemote).2
    ⟨"Error", "GET secret/metadata?list=true failed with 500"⟩ rfl⟩

/-- C7 (counterexample): a request built without a body still carries
the JSON content-type header, refuting "attached only when a body
argument is present". -/
theorem C7_counterexample :
    (buildRequest demoClient "GET" "secret/data/app" none).body = none ∧
    ("Content-Type", "application/json") ∈
      (buildRequest demoClient "GET" "secret/data/app" none).headers :=
  ⟨rfl, by decide⟩

/-- C7 (amended): every request carries exactly the auth token header
and the JSON content-type header (the latter also when no body is
present), and the body is sent exactly when one is provided. -/
theorem C7_headers_and_body (c : Client) (remote : Remote) (method apiPath : String) :
    (∀ body, (request c remote method apiPath body).1.headers =
        [("X-Vault-Token", c.token), ("Content-Type", "application/json")]) ∧
    (request c remote method apiPath none).1.body = none ∧
    (∀ b, (request c remote method apiPath (some b)).1.body = some b) :=
  ⟨fun _ => rfl, rfl, fun _ => rfl⟩

/-- C9 (confirmed): `addPolicy` embeds the policy name in the upsert
URL only through `encodeURIComponent`; for the name
`weird name/with:chars` the URL carries exactly its percent-escaped
form. -/
theorem C9_policy_name_escaped :
    (∀ (c : Client) (remote : Remote) (name policy : String),
        (addPolicy c remote name policy).1 =
          buildRequest c "PUT" ("sys/policies/acl/" ++ encodeURIComponent name)
            (some (JValue.obj [("policy", JValue.str policy)]))) ∧
    encodeURIComponent "weird name/with:chars" = "weird%20name%2Fwith%3Achars" ∧
    (addPolicy demoClient okRemote "weird name/with:chars" "policy text").1.url =
      "http://vault.local/v1/sys/policies/acl/weird%20name%2Fwith%3Achars" :=
  ⟨fun _ _ _ _ => rfl, by decide, by decide⟩

/-! ### Trimming lemmas for the policy-draft generator -/

/-- The head of a non-empty `dropWhile` result fails the predicate. -/
theorem dropWhile_cons_head_false (p : Char → Bool) (l : List Char) (a : Char) (t : List Char)
    (h : List.dropWhile p l = a :: t) : p a = false := by
  induction l with
  | nil => cases h
  | cons b bs ih =>
    cases hb : p b
    · rw [List.dropWhile_cons, hb] at h
      simp at h
      rw [← h.1]
      exact hb
    · rw [List.dropWhile_cons, hb] at h
      simp at h
      exact ih h

/-- Dropping leading whitespace from an already right-then-left trimmed
list changes nothing: the reversed result of the inner `dropWhile` is a
prefix of the first `dropWhile`, whose head already fails `p`. -/
theorem dropWhile_reverse_dropWhile (p : Char → Bool) (d : List Char) :
    List.dropWhile p (List.dropWhile p (List.dropWhile p d).reverse).reverse =
      (List.dropWhile p (List.dropWhile p d).reverse).reverse := by
  cases hrev : (List.dropWhile p (List.dropWhile p d).reverse).reverse with
  | nil => rfl
  | cons a t =>
    have hsuf : List.dropWhile p (List.dropWhile p d).reverse <:+ (List.dropWhile p d).reverse :=
      List.dropWhile_suffix p
    have hpre : (List.dropWhile p (List.dropWhile p d).reverse).reverse <+: List.dropWhile p d := by
      have h1 := List.reverse_prefix.mpr hsuf
      rwa [List.reverse_reverse] at h1
    rw [hrev] at hpre
    rcases hpre with ⟨u, hu⟩
    have hD : List.dropWhile p d = a :: (t ++ u) := by
      rw [← hu]
      rfl
    have hfa : p a = false := dropWhile_cons_head_false p d a (t ++ u) hD
    rw [List.dropWhile_cons, hfa]
    simp

/-- `jsTrim` is idempotent: a trimmed string has no surrounding
whitespace left to strip. -/
theorem jsTrim_idem (s : String) : jsTrim (jsTrim s) = jsTrim s := by
  show String.mk ((((((s.data.dropWhile jsIsSpace).reverse.dropWhile jsIsSpace).reverse).dropWhile
      jsIsSpace).reverse).dropWhile jsIsSpace).reverse =
    String.mk ((s.data.dropWhile jsIsSpace).reverse.dropWhile jsIsSpace).reverse
  rw [dropWhile_reverse_dropWhile, List.reverse_reverse, dropWhile_reverse_dropWhile]

/-- C8 (confirmed): the policy-draft generator is a pure function of
its two string arguments (it takes no remote): it splits the
capability string on commas, trims each entry (every capability in
the produced document is whitespace-trim-fixed), and returns
`\x7bpath: \x7b<path>: \x7bcapabilities: <list>\x7d\x7d\x7d`; the
`generate_policy("secret/data/apps/*", "read, list")` scenario yields
capabilities `["read", "list"]`. -/
theorem C8_generate_policy (path capabilities : String) :
    generatePolicy path capabilities =
      JValue.obj [("path", JValue.obj [(path, JValue.obj [("capabilities",
        JValue.arr ((jsSplit capabilities ',').map (fun c => JValue.str (jsTrim c))))])])] ∧
    (∀ s : String,
        JValue.str s ∈ (jsSplit capabilities ',').map (fun c => JValue.str (jsTrim c)) →
        jsTrim s = s) ∧
    generatePolicy "secret/data/apps/*" "read, list" =
      JValue.obj [("path", JValue.obj [("secret/data/apps/*", JValue.obj [("capabilities",
        JValue.arr [JValue.str "read", JValue.str "list"])])])] := by
  refine ⟨rfl, ?_, rfl⟩
  intro s hs
  rcases List.mem_map.mp hs with ⟨c, _, hc⟩
  injection hc with h
  rw [← h]
  exact jsTrim_idem c

/-- C8 witness: the trim-fixedness hypothesis discharged at the
capability `"read"` of the scenario input. -/
theorem C8_generate_policy_witness :
    JValue.str "read" ∈ (jsSplit "read, list" ',').map (fun c => JValue.str (jsTrim c)) ∧
    jsTrim "read" = "read" := by
  have hmem : JValue.str "read" ∈ (jsSplit "read, list" ',').map (fun c => JValue.str (jsTrim c)) :=
    List.mem_cons_self _ _
  exact ⟨hmem, (C8_generate_policy "secret/data/apps/*" "read, list").2.1 "read" hmem⟩
